import Mathlib

/-!
Verification of the vcf_parse variant-report pipeline.

The repository's entry point `vcf_parse.py` orchestrates four modules
(`scripts.vcf_report`, `scripts.preferred_transcripts`,
`scripts.known_variants`, `scripts.bed_object`).  The orchestration layer
is embedded from `vcf_parse.py` directly; the four modules are not part of
the available source tree, so their operations are modelled from the
specification (each such definition says so in its doc comment).
-/

namespace VcfParse

/-- Modelled from the spec: a VEP-style per-transcript block
(`TranscriptAnnotation` in the spec's data model; `scripts.vcf_report` is
not under src/).  Carries the transcript identifier, the gene symbol and
the remaining consequence/impact fields as a key/value list. -/
structure TranscriptEntry where
  transcript : String
  gene : String
  extra : List (String × String) := []
deriving DecidableEq

/-- Modelled from the spec: one parsed variant record (`VariantRecord` in
the spec's data model; `scripts.vcf_report` is not under src/):
chromosome, 1-based position, reference and alternate alleles, INFO and
FORMAT mappings, per-transcript blocks, FILTER status. -/
structure VariantRecord where
  chrom : String
  pos : Nat
  ref : String
  alt : String
  info : List (String × String) := []
  fmt : List (String × String) := []
  vep : List TranscriptEntry := []
  filter : String := "PASS"
deriving DecidableEq

/-- Modelled from the spec: the five admissible `source` values of a
config row (`info`, `format`, `vep`, `filter`, `pref`). -/
inductive Source where
  | info
  | format
  | vep
  | filter
  | pref
deriving DecidableEq

/-- Modelled from the spec: one config row
`{header, source, alias?}` (`scripts.vcf_report.load_config` is not under
src/). -/
structure ConfigEntry where
  header : String
  source : Source
  aliasName : Option String := none
deriving DecidableEq

/-- Modelled from the spec: the Record Catalog — the parsed variant
records of the input VCF together with the declared field catalog in
catalog-discovery order (`scripts.vcf_report` is not under src/). -/
structure Catalog where
  records : List VariantRecord := []
  fields : List ConfigEntry := []
deriving DecidableEq

/-- Output column name of a config row: the alias when given, otherwise
the header. -/
def columnName (e : ConfigEntry) : String :=
  e.aliasName.getD e.header

/-- Modelled from the spec: one report row — the originating record plus
the ordered column-name/value cells (`ReportRow` in the spec's data
model). -/
structure ReportRow where
  record : VariantRecord
  cells : List (String × String)
deriving DecidableEq

/-- Modelled from the spec: a report — the resolved column-name sequence
plus the ordered rows (`Report` in the spec's data model). -/
structure Report where
  columns : List String
  rows : List ReportRow
deriving DecidableEq

/-- Look a column's value up in a row's cell list. -/
def getCell (cells : List (String × String)) (name : String) : Option String :=
  (cells.find? (fun p => p.1 == name)).map (fun p => p.2)

/-- Overwrite a column's value in a row's cell list (first binding wins),
appending the binding when the column is absent. -/
def setCell : List (String × String) → String → String → List (String × String)
  | [], name, value => [(name, value)]
  | p :: ps, name, value =>
    if p.1 == name then (p.1, value) :: ps
    else p :: setCell ps name value

/-- Join character lists with a separator character (the cell and row
joins of tab-delimited serialization). -/
def joinChar (c : Char) : List (List Char) → List Char
  | [] => []
  | [x] => x
  | x :: y :: ys => x ++ c :: joinChar c (y :: ys)

/-- Split a character list at every occurrence of the separator; always
returns at least one (possibly empty) piece. -/
def splitChar (c : Char) : List Char → List (List Char)
  | [] => [[]]
  | x :: xs =>
    if x = c then [] :: splitChar c xs
    else
      match splitChar c xs with
      | ys :: rest => (x :: ys) :: rest
      | [] => [[x]]

/-- Modelled from the spec: extraction of one configured field from one
record (`scripts.vcf_report.make_report` is not under src/).  `info` and
`format` look the header up in the respective mapping, `filter` returns
the FILTER status, `vep` looks the header up in the first transcript
block (the spec leaves per-transcript expansion open), and `pref` columns
start out as the literal `Unknown`, to be overwritten by the preferred
transcript stage when one runs. -/
def extractValue (e : ConfigEntry) (r : VariantRecord) : String :=
  match e.source with
  | Source.info => ((r.info.find? (fun p => p.1 == e.header)).map (fun p => p.2)).getD ""
  | Source.format => ((r.fmt.find? (fun p => p.1 == e.header)).map (fun p => p.2)).getD ""
  | Source.vep =>
      (((r.vep.head?.map TranscriptEntry.extra).getD []).find?
        (fun p => p.1 == e.header) |>.map (fun p => p.2)).getD ""
  | Source.filter => r.filter
  | Source.pref => "Unknown"

/-- The config rows in effect: the loaded Config when one is supplied,
otherwise all declared catalog fields in catalog-discovery order
(default behavior of `vcf_parse.py` when `-c` is absent). -/
def effectiveConfig : Option (List ConfigEntry) → Catalog → List ConfigEntry
  | some cfg, _ => cfg
  | none, cat => cat.fields

/-- Build one report row from the effective config rows. -/
def buildRow (entries : List ConfigEntry) (r : VariantRecord) : ReportRow :=
  { record := r, cells := entries.map (fun e => (columnName e, extractValue e r)) }

/-- Modelled from the spec: `vcf_report.make_report(filter_non_pass)` is
not under src/.  Builds the base report: one row per record in input
order, columns in effective-config order; when the FILTER-exclusion flag
is set, records whose FILTER status is not `PASS` are dropped first. -/
def makeReport (cfg : Option (List ConfigEntry)) (cat : Catalog)
    (filterNonPass : Bool) : Report :=
  let entries := effectiveConfig cfg cat
  let recs :=
    if filterNonPass then cat.records.filter (fun r => r.filter == "PASS")
    else cat.records
  { columns := entries.map columnName, rows := recs.map (buildRow entries) }

/-- Matching strictness of the preferred transcript stage, `high` or
`low` (the `-T` `--transcript_strictness` option of `vcf_parse.py`). -/
inductive Strictness where
  | high
  | low
deriving DecidableEq

/-- The characters before the last `.` of a character list, or `none`
when the list has no `.` (helper of version stripping). -/
def beforeLastDot : List Char → Option (List Char)
  | [] => none
  | c :: cs =>
    match beforeLastDot cs with
    | some pre => some (c :: pre)
    | none => if c = '.' then some [] else none

/-- Strip the version suffix of a transcript identifier: drop the
substring following the last `.` (together with that `.`); an identifier
without a `.` is returned unchanged. -/
def stripVersion (t : String) : String :=
  match beforeLastDot t.data with
  | some pre => String.mk pre
  | none => t

/-- Modelled from the spec: identifier-level comparison of the preferred
transcript stage (`scripts.preferred_transcripts` is not under src/).
`high`: byte-identical including the version suffix; `low`: equal after
stripping the version suffix. -/
def transcriptMatch (strict : Strictness) (pref tx : String) : Bool :=
  match strict with
  | Strictness.high => pref == tx
  | Strictness.low => stripVersion pref == stripVersion tx

/-- Modelled from the spec: the preferred transcript list, a mapping from
gene symbol to preferred transcript identifier
(`scripts.preferred_transcripts.load` is not under src/). -/
structure PreferredTranscriptList where
  entries : List (String × String) := []
deriving DecidableEq

/-- The preferred entry for a gene, when the list has one. -/
def PreferredTranscriptList.lookup (pt : PreferredTranscriptList)
    (gene : String) : Option String :=
  (pt.entries.find? (fun p => p.1 == gene)).map (fun p => p.2)

/-- Modelled from the spec: per-row resolution of the preferred
transcript stage — the first (annotation-order) transcript block whose
gene has a preferred entry matching the block's transcript identifier
under the given strictness; `none` when no block matches. -/
def findPreferred (pt : PreferredTranscriptList) (strict : Strictness)
    (r : VariantRecord) : Option TranscriptEntry :=
  r.vep.find? (fun a =>
    match pt.lookup a.gene with
    | some p => transcriptMatch strict p a.transcript
    | none => false)

/-- The report column the preferred transcript stage writes. -/
def preferredColumn : String := "Preferred"

/-- Modelled from the spec: `preferred_transcripts.apply(report,
strictness)` is not under src/.  Sets every row's preferred-transcript
column to the matched transcript identifier, or to the literal `Unknown`
when no transcript of the row matches (in particular when the row's
gene has no entry in the list). -/
def applyPreferred (pt : PreferredTranscriptList) (strict : Strictness)
    (rep : Report) : Report :=
  { rep with
    rows := rep.rows.map (fun row =>
      { row with
        cells := setCell row.cells preferredColumn
          (((findPreferred pt strict row.record).map
              TranscriptEntry.transcript).getD "Unknown") }) }

/-- The exact-identity key of a variant: chromosome, position, reference
allele, alternate allele. -/
def variantKey (r : VariantRecord) : String × Nat × String × String :=
  (r.chrom, r.pos, r.ref, r.alt)

/-- Modelled from the spec: the known-variants index built from the
secondary VCF, keyed by variant identity with the `Classification` INFO
value (`scripts.known_variants.load_known_variants` is not under
src/). -/
structure KnownVariantIndex where
  entries : List ((String × Nat × String × String) × String) := []
deriving DecidableEq

/-- Classification of a variant identity key, when the index has it;
matching is exact equality on the whole key. -/
def KnownVariantIndex.lookup (k : KnownVariantIndex)
    (key : String × Nat × String × String) : Option String :=
  (k.entries.find? (fun p => decide (p.1 = key))).map (fun p => p.2)

/-- The report column the known variant classifier writes. -/
def classificationColumn : String := "Classification"

/-- Modelled from the spec: `known_variants.apply_known_variants(report)`
is not under src/.  Sets every row's classification column to the indexed
classification of the row's exact variant key, or to the empty string
when the key is absent from the index. -/
def applyKnownVariants (k : KnownVariantIndex) (rep : Report) : Report :=
  { rep with
    rows := rep.rows.map (fun row =>
      { row with
        cells := setCell row.cells classificationColumn
          ((k.lookup (variantKey row.record)).getD "") }) }

/-- Modelled from the spec: one BED interval — chromosome, half-open
interval `[chromStart, chromEnd)`, optional name
(`scripts.bed_object` is not under src/). -/
structure BedRegion where
  chrom : String
  chromStart : Nat
  chromEnd : Nat
  name : Option String := none
deriving DecidableEq

/-- Membership of a (chromosome, position) in one BED interval: exact
string match on the chromosome and `start ≤ position < end`. -/
def inRegion (reg : BedRegion) (chrom : String) (pos : Nat) : Bool :=
  reg.chrom == chrom && decide (reg.chromStart ≤ pos) && decide (pos < reg.chromEnd)

/-- Modelled from the spec: a named region set, one per BED file. -/
structure RegionSet where
  name : String
  regions : List BedRegion := []
deriving DecidableEq

/-- Membership of a (chromosome, position) in some interval of the set. -/
def RegionSet.containsPos (rs : RegionSet) (chrom : String) (pos : Nat) : Bool :=
  rs.regions.any (fun reg => inRegion reg chrom pos)

/-- Modelled from the spec: the region filter of
`bed_object.apply_single`/`apply_multiple` — keep exactly the rows whose
(chromosome, position) lies in some interval of the set; the base report
is not mutated. -/
def applyRegionSet (rs : RegionSet) (rep : Report) : Report :=
  { rep with
    rows := rep.rows.filter (fun row =>
      rs.containsPos row.record.chrom row.record.pos) }

/-- Parse a nonempty digit string (helper of the BED line format). -/
def parseNatList : List Char → Nat → Option Nat
  | [], acc => some acc
  | c :: cs, acc =>
    if c.isDigit then parseNatList cs (acc * 10 + (c.toNat - 48)) else none

/-- Parse a decimal numeral; fails on the empty string and on any
non-digit character. -/
def parseNat (s : String) : Option Nat :=
  match s.data with
  | [] => none
  | c :: cs => parseNatList (c :: cs) 0

/-- A BED input file: its name and its raw tab-separated lines. -/
structure BedFile where
  name : String
  lines : List String := []
deriving DecidableEq

/-- Modelled from the spec: one BED line is `chrom<TAB>start<TAB>end`
with an optional fourth name column; anything else is malformed. -/
def parseBedLine (l : String) : Option BedRegion :=
  match (splitChar '\t' l.data).map String.mk with
  | c :: s :: e :: rest =>
    match parseNat s, parseNat e with
    | some sn, some en =>
        some { chrom := c, chromStart := sn, chromEnd := en, name := rest.head? }
    | _, _ => none
  | _ => none

/-- Modelled from the spec: loading one BED file into a region set
(`bed_object` is not under src/); a malformed line fails the whole file
with a ParseError carrying the file's name. -/
def loadBed (f : BedFile) : Except String RegionSet :=
  match f.lines.mapM parseBedLine with
  | some regs => Except.ok { name := f.name, regions := regs }
  | none => Except.error f.name

/-- Whether one BED file loads without a ParseError. -/
def loadOk (f : BedFile) : Bool :=
  match loadBed f with
  | Except.ok _ => true
  | Except.error _ => false

/-- Modelled from the spec: `bed_object.apply_multiple(bed_folder,
report)` is not under src/.  Each BED file of the folder is processed
independently: a file that loads yields one derived report (named after
the file), a malformed file yields one logged failure and does not abort
the remaining files. -/
def applyMultiple (folder : List BedFile) (rep : Report) :
    List (String × Report) × List String :=
  folder.foldr
    (fun f acc =>
      match loadBed f with
      | Except.ok rs => ((f.name, applyRegionSet rs rep) :: acc.1, acc.2)
      | Except.error e => (acc.1, e :: acc.2))
    ([], [])

/-- The parsed command line of `vcf_parse.py` (`get_args`), with the
file-path arguments replaced by their already-parsed contents (argument
parsing and file reading are outside the spec's core).  Field defaults
mirror `argparse`: optional arguments default to absent, `store_true`
flags to `false`, and `transcript_strictness` to `low`
(`default='low'` in `get_args`). -/
structure Args where
  input : Catalog
  output : Option String := none
  transcripts : Option PreferredTranscriptList := none
  transcript_strictness : Strictness := Strictness.low
  bed : Option BedFile := none
  bed_folder : Option (List BedFile) := none
  known_variants : Option KnownVariantIndex := none
  config : Option (List ConfigEntry) := none
  config_list : Bool := false
  filter_non_pass : Bool := false
deriving DecidableEq

/-- The observable outcome of one run of `main`: the printed field
catalog when the listing flag short-circuits, whether that early exit
happened, the base report, the derived per-BED reports, the logged
per-BED-file failures, and a fatal error if any. -/
structure RunResult where
  listing : Option (List ConfigEntry) := none
  exitedEarly : Bool := false
  baseReport : Option Report := none
  derivedReports : List (String × Report) := []
  bedFailures : List String := []
  fatal : Option String := none
deriving DecidableEq

/-- Modelled from the spec: `vcf_report.list_config` is not under src/;
it prints the declared field catalog (the rows a config file would
contain). -/
def listConfig (cat : Catalog) : List ConfigEntry :=
  cat.fields

/-- The `main` function of `vcf_parse.py`, stage for stage: load the
input; when `-l` is set, list the field catalog and exit before loading
any config and before building the report; otherwise build the base
report from the optional config and the FILTER-exclusion flag, apply the
preferred transcript stage when a transcript list is given, apply the
known variant classifier when an index is given, then run the single-BED
branch, else the BED-folder branch, else no BED stage. -/
def mainRun (args : Args) : RunResult :=
  let catalog := args.input
  if args.config_list then
    { listing := some (listConfig catalog), exitedEarly := true }
  else
    let rep := makeReport args.config catalog args.filter_non_pass
    let rep :=
      match args.transcripts with
      | some pt => applyPreferred pt args.transcript_strictness rep
      | none => rep
    let rep :=
      match args.known_variants with
      | some k => applyKnownVariants k rep
      | none => rep
    match args.bed with
    | some f =>
      match loadBed f with
      | Except.ok rs =>
          { baseReport := some rep,
            derivedReports := [(f.name, applyRegionSet rs rep)] }
      | Except.error e => { baseReport := some rep, fatal := some e }
    | none =>
      match args.bed_folder with
      | some folder =>
          let res := applyMultiple folder rep
          { baseReport := some rep, derivedReports := res.1,
            bedFailures := res.2 }
      | none => { baseReport := some rep }

/-- The cell values of a report, row by row, in column order. -/
def cellValues (rep : Report) : List (List String) :=
  rep.rows.map (fun row => row.cells.map (fun p => p.2))

/-- Modelled from the spec: serialization of a report to tab-delimited
text (the report-writing code is not under src/): cells joined by tabs,
rows joined by newlines. -/
def serializeReport (rep : Report) : String :=
  String.mk (joinChar '\n'
    ((cellValues rep).map (fun row => joinChar '\t' (row.map String.data))))

/-- Re-read tab-delimited text: split into lines, split each line into
cells. -/
def readCells (s : String) : List (List String) :=
  (splitChar '\n' s.data).map (fun l => (splitChar '\t' l).map String.mk)

/-! Concrete sample inputs used by witnesses and concrete conjuncts. -/

/-- A sample PASS variant at (chr1, 100, A, T) with one transcript
block. -/
def demoRecord : VariantRecord :=
  { chrom := "chr1", pos := 100, ref := "A", alt := "T",
    info := [("DP", "10")], fmt := [("GT", "0/1")],
    vep := [{ transcript := "NM_001007553.2", gene := "GENE1" }],
    filter := "PASS" }

/-- A sample declared field catalog. -/
def demoFields : List ConfigEntry :=
  [{ header := "DP", source := Source.info },
   { header := "FILTER", source := Source.filter },
   { header := "Preferred", source := Source.pref }]

/-- A one-record sample catalog. -/
def demoCatalog : Catalog :=
  { records := [demoRecord], fields := demoFields }

/-- A sample variant whose FILTER status is `q10`. -/
def q10Record : VariantRecord :=
  { chrom := "chr1", pos := 200, ref := "G", alt := "C", filter := "q10" }

/-- A catalog holding one PASS record and one q10 record. -/
def filterCatalog : Catalog :=
  { records := [demoRecord, q10Record], fields := demoFields }

/-- A sample variant at a given position on chr1. -/
def posRecord (p : Nat) : VariantRecord :=
  { chrom := "chr1", pos := p, ref := "A", alt := "T" }

/-- A report over variants at positions 99, 100, 199, 200. -/
def bedDemoReport : Report :=
  makeReport none
    { records := [posRecord 99, posRecord 100, posRecord 199, posRecord 200],
      fields := demoFields } false

/-- A region set holding the single interval chr1:[100, 200). -/
def demoRegionSet : RegionSet :=
  { name := "demo", regions := [{ chrom := "chr1", chromStart := 100, chromEnd := 200 }] }

/-- A well-formed one-interval BED file. -/
def goodBed1 : BedFile := { name := "panelA.bed", lines := ["chr1\t100\t200"] }

/-- A malformed BED file (non-numeric start column). -/
def badBed : BedFile := { name := "broken.bed", lines := ["chr1\tfoo\t200"] }

/-- A second well-formed BED file, with a name column. -/
def goodBed2 : BedFile := { name := "panelB.bed", lines := ["chr1\t0\t50\tregion1"] }

/-- A run over the sample catalog with a 3-file BED folder of which one
file is malformed. -/
def bedFolderArgs : Args :=
  { input := demoCatalog, bed_folder := some [goodBed1, badBed, goodBed2] }

/-- A known-variants index classifying (chr1, 100, A, T) as 5. -/
def knownIdx : KnownVariantIndex :=
  { entries := [(("chr1", 100, "A", "T"), "5")] }

/-! Helper lemmas. -/

theorem getCell_setCell (cells : List (String × String)) (name value : String) :
    getCell (setCell cells name value) name = some value := by
  induction cells with
  | nil => simp [getCell, setCell, List.find?]
  | cons p ps ih =>
    by_cases h : p.1 == name
    · simp [getCell, setCell, h, List.find?]
    · simpa [getCell, setCell, h, List.find?] using ih

theorem map_record_buildRow (e : List ConfigEntry) (recs : List VariantRecord) :
    ((recs.map (buildRow e)).map (fun row => row.record)) = recs := by
  induction recs with
  | nil => rfl
  | cons r rs ih => simp [ih, buildRow]

theorem matchPred_iff (pt : PreferredTranscriptList) (strict : Strictness)
    (a : TranscriptEntry) :
    ((match pt.lookup a.gene with
      | some p => transcriptMatch strict p a.transcript
      | none => false) = true) ↔
    ∃ p, pt.lookup a.gene = some p ∧ transcriptMatch strict p a.transcript = true := by
  cases h : pt.lookup a.gene <;> simp [h]

/-! The claims. -/

/-- C1: the preferred transcript matcher compares each transcript
identifier of a row against the preferred entry for that row's gene;
under `high` strictness identifiers match exactly (version suffix
included), under `low` strictness they match after stripping the
substring following the last `.`; preferred `NM_001007553.1` against
transcript `NM_001007553.2` is no match under `high` and a match under
`low`; and `low` is the default strictness when none is given. -/
theorem C1_preferred_transcript_matching :
    (∀ pref tx, transcriptMatch Strictness.high pref tx = true ↔ pref = tx) ∧
    (∀ pref tx, transcriptMatch Strictness.low pref tx = true ↔
       stripVersion pref = stripVersion tx) ∧
    (∀ (pt : PreferredTranscriptList) (strict : Strictness) (r : VariantRecord),
       (findPreferred pt strict r).isSome = true ↔
       ∃ a ∈ r.vep, ∃ p, pt.lookup a.gene = some p ∧
         transcriptMatch strict p a.transcript = true) ∧
    transcriptMatch Strictness.high "NM_001007553.1" "NM_001007553.2" = false ∧
    transcriptMatch Strictness.low "NM_001007553.1" "NM_001007553.2" = true ∧
    (∀ cat : Catalog, ({ input := cat } : Args).transcript_strictness = Strictness.low) := by
  refine ⟨?_, ?_, ?_, ?_, ?_, fun _ => rfl⟩
  · intro pref tx; simp [transcriptMatch]
  · intro pref tx; simp [transcriptMatch]
  · intro pt strict r
    simp [findPreferred, List.find?_isSome, matchPred_iff]
  · decide
  · decide

/-- C2: the base report's column-name sequence equals the Config's entry
sequence in declared order; with no Config it is all declared catalog
fields in catalog-discovery order. -/
theorem C2_column_order :
    (∀ (cfg : List ConfigEntry) (cat : Catalog) (f : Bool),
       (makeReport (some cfg) cat f).columns = cfg.map columnName) ∧
    (∀ (cat : Catalog) (f : Bool),
       (makeReport none cat f).columns = cat.fields.map columnName) :=
  ⟨fun _ _ _ => rfl, fun _ _ => rfl⟩

/-- C7: with the FILTER-exclusion flag set the base report keeps exactly
the records whose FILTER status is `PASS`; without it all records are
kept; on a VCF holding a PASS row and a q10 row this yields only the
PASS row with the flag and both rows without. -/
theorem C7_filter_flag :
    (∀ (cfg : Option (List ConfigEntry)) (cat : Catalog),
       ((makeReport cfg cat true).rows.map (fun row => row.record)) =
         cat.records.filter (fun r => r.filter == "PASS") ∧
       ((makeReport cfg cat false).rows.map (fun row => row.record)) =
         cat.records) ∧
    ((makeReport none filterCatalog true).rows.map (fun row => row.record)) =
      [demoRecord] ∧
    ((makeReport none filterCatalog false).rows.map (fun row => row.record)) =
      [demoRecord, q10Record] := by
  refine ⟨fun cfg cat => ⟨?_, ?_⟩, by decide, by decide⟩
  · have h : (makeReport cfg cat true).rows =
        (cat.records.filter (fun r => r.filter == "PASS")).map
          (buildRow (effectiveConfig cfg cat)) := rfl
    rw [h]
    exact map_record_buildRow _ _
  · have h : (makeReport cfg cat false).rows =
        cat.records.map (buildRow (effectiveConfig cfg cat)) := rfl
    rw [h]
    exact map_record_buildRow _ _

/-- C8: row order equals input VCF record order (exactly, when the
FILTER flag is off; as a subsequence in general), and a region filter
only removes rows — every derived report's row sequence is a subsequence
of the base report's row sequence. -/
theorem C8_row_order :
    (∀ (cfg : Option (List ConfigEntry)) (cat : Catalog),
       ((makeReport cfg cat false).rows.map (fun row => row.record)) =
         cat.records) ∧
    (∀ (cfg : Option (List ConfigEntry)) (cat : Catalog) (f : Bool),
       List.Sublist ((makeReport cfg cat f).rows.map (fun row => row.record))
         cat.records) ∧
    (∀ (rs : RegionSet) (rep : Report),
       List.Sublist (applyRegionSet rs rep).rows rep.rows) := by
  refine ⟨fun cfg cat => ?_, fun cfg cat f => ?_, fun rs rep => ?_⟩
  · have h : (makeReport cfg cat false).rows =
        cat.records.map (buildRow (effectiveConfig cfg cat)) := rfl
    rw [h]
    exact map_record_buildRow _ _
  · cases f
    · have h : (makeReport cfg cat false).rows =
          cat.records.map (buildRow (effectiveConfig cfg cat)) := rfl
      rw [h, map_record_buildRow]
    · have h : (makeReport cfg cat true).rows =
          (cat.records.filter (fun r => r.filter == "PASS")).map
            (buildRow (effectiveConfig cfg cat)) := rfl
      rw [h, map_record_buildRow]
      exact List.filter_sublist _
  · exact List.filter_sublist _

theorem map_getCell_setCell (c : String) (v : ReportRow → String)
    (rows : List ReportRow) :
    ((rows.map (fun row => { row with cells := setCell row.cells c (v row) })).map
       (fun row => getCell row.cells c)) = rows.map (fun row => some (v row)) := by
  induction rows with
  | nil => rfl
  | cons r rs ih => simp [ih, getCell_setCell]

/-- C3: the known variant classifier matches by exact equality on the
(chromosome, position, reference, alternate) key; a row whose key is
indexed with Classification 5 gets classification value `5`, and a row
whose key is absent gets the empty classification value, with no
error. -/
theorem C3_known_variant_classifier :
    (∀ (k : KnownVariantIndex) (key : String × Nat × String × String),
       ((k.lookup key).isSome = true ↔ ∃ p ∈ k.entries, p.1 = key)) ∧
    (∀ (k : KnownVariantIndex) (rep : Report),
       ((applyKnownVariants k rep).rows.map
          (fun row => getCell row.cells classificationColumn)) =
         rep.rows.map (fun row =>
           some ((k.lookup (variantKey row.record)).getD ""))) ∧
    ((applyKnownVariants knownIdx (makeReport none demoCatalog false)).rows.map
       (fun row => getCell row.cells classificationColumn)) = [some "5"] ∧
    ((applyKnownVariants knownIdx
        (makeReport none
          { records := [{ chrom := "chr2", pos := 7, ref := "G", alt := "C" }],
            fields := demoFields } false)).rows.map
       (fun row => getCell row.cells classificationColumn)) = [some ""] := by
  refine ⟨?_, ?_, by decide, by decide⟩
  · intro k key
    simp [KnownVariantIndex.lookup, List.find?_isSome]
  · intro k rep
    have h : (applyKnownVariants k rep).rows =
        rep.rows.map (fun row =>
          { row with
            cells := setCell row.cells classificationColumn
              ((k.lookup (variantKey row.record)).getD "") }) := rfl
    rw [h]
    exact map_getCell_setCell _ _ _

/-- C4: the single-BED derived report holds exactly the rows whose
(chromosome, position) lies in some interval of the region set under
half-open semantics with exact chromosome string match; for the interval
chr1:[100, 200) positions 100 and 199 are retained and 99 and 200 are
excluded. -/
theorem C4_bed_region_filter :
    (∀ (rs : RegionSet) (rep : Report) (row : ReportRow),
       row ∈ (applyRegionSet rs rep).rows ↔
         row ∈ rep.rows ∧ ∃ reg ∈ rs.regions,
           reg.chrom = row.record.chrom ∧ reg.chromStart ≤ row.record.pos ∧
             row.record.pos < reg.chromEnd) ∧
    ((applyRegionSet demoRegionSet bedDemoReport).rows.map
       (fun row => row.record.pos)) = [100, 199] := by
  refine ⟨?_, by decide⟩
  intro rs rep row
  simp [applyRegionSet, List.mem_filter, RegionSet.containsPos, inRegion,
    List.any_eq_true, Bool.and_eq_true, decide_eq_true_eq, and_assoc]

theorem applyMultiple_cons_ok (f : BedFile) (fs : List BedFile) (rep : Report)
    (rs : RegionSet) (h : loadBed f = Except.ok rs) :
    applyMultiple (f :: fs) rep =
      ((f.name, applyRegionSet rs rep) :: (applyMultiple fs rep).1,
       (applyMultiple fs rep).2) := by
  simp only [applyMultiple, List.foldr_cons]
  rw [h]

theorem applyMultiple_cons_error (f : BedFile) (fs : List BedFile) (rep : Report)
    (e : String) (h : loadBed f = Except.error e) :
    applyMultiple (f :: fs) rep =
      ((applyMultiple fs rep).1, e :: (applyMultiple fs rep).2) := by
  simp only [applyMultiple, List.foldr_cons]
  rw [h]

/-- C5: in multi-region mode every BED file is processed independently —
the derived reports are exactly one per loadable file and each malformed
file contributes one logged failure without aborting the rest; on the
sample folder of 3 BED files with one malformed, exactly 2 derived
reports and 1 logged failure result, and the base report is still
produced. -/
theorem C5_multi_bed_isolation :
    (∀ (folder : List BedFile) (rep : Report),
       (applyMultiple folder rep).1.length = (folder.filter loadOk).length ∧
       (applyMultiple folder rep).1.length + (applyMultiple folder rep).2.length =
         folder.length) ∧
    (mainRun bedFolderArgs).derivedReports.length = 2 ∧
    (mainRun bedFolderArgs).bedFailures = ["broken.bed"] ∧
    (mainRun bedFolderArgs).baseReport.isSome = true := by
  refine ⟨?_, by decide, by decide, by decide⟩
  intro folder rep
  induction folder with
  | nil => exact ⟨rfl, rfl⟩
  | cons f fs ih =>
    obtain ⟨ih1, ih2⟩ := ih
    cases h : loadBed f with
    | ok rs =>
      rw [applyMultiple_cons_ok f fs rep rs h]
      constructor
      · simp [List.filter_cons, loadOk, h, ih1]
      · simp only [List.length_cons]
        omega
    | error e =>
      rw [applyMultiple_cons_error f fs rep e h]
      constructor
      · simp [List.filter_cons, loadOk, h, ih1]
      · simp only [List.length_cons]
        omega

/-- C6: the preferred transcript stage never fails — with no loaded
list every pref-sourced cell of the base report is the literal
`Unknown`; with a loaded list, a row none of whose genes has an entry
also gets `Unknown`; and the stage always returns a report with the same
columns and as many rows as before. -/
theorem C6_unknown_default :
    (∀ (e : ConfigEntry) (r : VariantRecord), e.source = Source.pref →
       extractValue e r = "Unknown") ∧
    (∀ (pt : PreferredTranscriptList) (strict : Strictness) (rep : Report),
       ((applyPreferred pt strict rep).rows.map
          (fun row => getCell row.cells preferredColumn)) =
         rep.rows.map (fun row =>
           some (((findPreferred pt strict row.record).map
             TranscriptEntry.transcript).getD "Unknown"))) ∧
    (∀ (pt : PreferredTranscriptList) (strict : Strictness) (r : VariantRecord),
       (∀ a ∈ r.vep, pt.lookup a.gene = none) →
       findPreferred pt strict r = none) ∧
    (∀ (pt : PreferredTranscriptList) (strict : Strictness) (rep : Report),
       (applyPreferred pt strict rep).columns = rep.columns ∧
       (applyPreferred pt strict rep).rows.length = rep.rows.length) := by
  refine ⟨?_, ?_, ?_, ?_⟩
  · intro e r h
    obtain ⟨hd, src, al⟩ := e
    cases h
    rfl
  · intro pt strict rep
    have h : (applyPreferred pt strict rep).rows =
        rep.rows.map (fun row =>
          { row with
            cells := setCell row.cells preferredColumn
              (((findPreferred pt strict row.record).map
                  TranscriptEntry.transcript).getD "Unknown") }) := rfl
    rw [h]
    exact map_getCell_setCell _ _ _
  · intro pt strict r h
    simp only [findPreferred, List.find?_eq_none]
    intro a ha
    simp [h a ha]
  · intro pt strict rep
    exact ⟨rfl, by simp [applyPreferred]⟩

/-- Witness for C6: a pref-sourced cell of the sample record is
`Unknown`, and a list with no entry for the sample record's gene yields
no preferred match. -/
theorem C6_unknown_default_witness :
    extractValue { header := "Preferred", source := Source.pref } demoRecord =
      "Unknown" ∧
    findPreferred { entries := [("OTHER", "NM_1.1")] } Strictness.low
      demoRecord = none :=
  ⟨C6_unknown_default.1 { header := "Preferred", source := Source.pref }
     demoRecord rfl,
   C6_unknown_default.2.2.1 { entries := [("OTHER", "NM_1.1")] }
     Strictness.low demoRecord (by decide)⟩

/-- C10: with the config-listing flag set, `main` prints the field
catalog and exits before loading any config and before building or
enriching any report; two runs on the same input VCF with the flag set
give identical outcomes regardless of the config, transcripts,
known-variants, BED and FILTER-exclusion arguments. -/
theorem C10_config_list_early_exit (a b : Args)
    (ha : a.config_list = true) (hb : b.config_list = true)
    (hin : a.input = b.input) :
    mainRun a = mainRun b ∧
    (mainRun a).exitedEarly = true ∧
    (mainRun a).baseReport = none ∧
    (mainRun a).derivedReports = [] ∧
    (mainRun a).listing = some (listConfig a.input) := by
  have h1 : mainRun a = { listing := some (listConfig a.input), exitedEarly := true } := by
    simp [mainRun, ha]
  have h2 : mainRun b = { listing := some (listConfig b.input), exitedEarly := true } := by
    simp [mainRun, hb]
  rw [h1, h2, hin]
  exact ⟨rfl, rfl, rfl, rfl, rfl⟩

/-- A listing-flag run with no optional arguments. -/
def listArgsA : Args := { input := demoCatalog, config_list := true }

/-- A listing-flag run over the same input with every optional argument
set differently. -/
def listArgsB : Args :=
  { input := demoCatalog, config_list := true, filter_non_pass := true,
    output := some "out",
    config := some [{ header := "DP", source := Source.info }],
    known_variants := some knownIdx,
    transcripts := some { entries := [("GENE1", "NM_001007553.1")] },
    transcript_strictness := Strictness.high,
    bed_folder := some [goodBed1, badBed, goodBed2] }

/-- Witness for C10: the two sample listing-flag runs coincide and exit
early with the listed catalog and no reports. -/
theorem C10_config_list_early_exit_witness :
    mainRun listArgsA = mainRun listArgsB ∧
    (mainRun listArgsA).exitedEarly = true ∧
    (mainRun listArgsA).baseReport = none ∧
    (mainRun listArgsA).derivedReports = [] ∧
    (mainRun listArgsA).listing = some (listConfig listArgsA.input) :=
  C10_config_list_early_exit listArgsA listArgsB rfl rfl rfl

theorem splitChar_no_sep (c : Char) (l : List Char) (h : ¬ c ∈ l) :
    splitChar c l = [l] := by
  induction l with
  | nil => rfl
  | cons x xs ih =>
    have hx : ¬ x = c := fun hc => h (hc ▸ List.mem_cons_self x xs)
    have hxs : ¬ c ∈ xs := fun hm => h (List.mem_cons_of_mem x hm)
    simp [splitChar, hx, ih hxs]

theorem splitChar_append (c : Char) (l rest : List Char) (h : ¬ c ∈ l) :
    splitChar c (l ++ c :: rest) = l :: splitChar c rest := by
  induction l with
  | nil => simp [splitChar]
  | cons x xs ih =>
    have hx : ¬ x = c := fun hc => h (hc ▸ List.mem_cons_self x xs)
    have hxs : ¬ c ∈ xs := fun hm => h (List.mem_cons_of_mem x hm)
    simp [splitChar, hx, ih hxs]

theorem splitChar_joinChar (c : Char) (xs : List (List Char)) (hne : xs ≠ [])
    (h : ∀ x ∈ xs, ¬ c ∈ x) : splitChar c (joinChar c xs) = xs := by
  induction xs with
  | nil => exact absurd rfl hne
  | cons x ys ih =>
    cases ys with
    | nil =>
      simpa [joinChar] using splitChar_no_sep c x (h x (List.mem_cons_self _ _))
    | cons y zs =>
      simp only [joinChar]
      rw [splitChar_append c x _ (h x (List.mem_cons_self _ _))]
      rw [ih (by simp) (fun z hz => h z (List.mem_cons_of_mem _ hz))]

theorem mem_joinChar {a c : Char} (xs : List (List Char))
    (h : a ∈ joinChar c xs) : a = c ∨ ∃ x ∈ xs, a ∈ x := by
  induction xs with
  | nil => simp [joinChar] at h
  | cons x ys ih =>
    cases ys with
    | nil =>
      exact Or.inr ⟨x, List.mem_cons_self x [], by simpa [joinChar] using h⟩
    | cons y zs =>
      simp only [joinChar] at h
      rcases List.mem_append.mp h with h1 | h2
      · exact Or.inr ⟨x, List.mem_cons_self _ _, h1⟩
      · rcases List.mem_cons.mp h2 with h3 | h4
        · exact Or.inl h3
        · rcases ih h4 with h5 | ⟨z, hz, haz⟩
          · exact Or.inl h5
          · exact Or.inr ⟨z, List.mem_cons_of_mem _ hz, haz⟩

/-- A variant used by the serialization counterexample. -/
def tabRecord : VariantRecord :=
  { chrom := "chr1", pos := 1, ref := "A", alt := "T" }

/-- A report whose single cell value contains a tab character. -/
def tabReport : Report :=
  { columns := ["NOTES"],
    rows := [{ record := tabRecord, cells := [("NOTES", "a\tb")] }] }

/-- Counterexample for C9: a report with a tab character inside a cell
value does not survive the tab-delimited round trip — the cell is split
in two on re-reading. -/
theorem C9_roundtrip_counterexample :
    readCells (serializeReport tabReport) ≠ cellValues tabReport := by decide

/-- C9 (amended): for every report with at least one row, whose rows
each have at least one cell, and whose cell values contain no tab and no
newline character, serializing to tab-delimited text and re-reading
recovers exactly the original cell values of every row. -/
theorem C9_serialization_roundtrip (rep : Report)
    (h1 : rep.rows ≠ [])
    (h2 : ∀ row ∈ rep.rows, row.cells ≠ [])
    (h3 : ∀ row ∈ rep.rows, ∀ p ∈ row.cells,
       ¬ '\t' ∈ p.2.data ∧ ¬ '\n' ∈ p.2.data) :
    readCells (serializeReport rep) = cellValues rep := by
  have hrows : cellValues rep ≠ [] := by
    simp only [cellValues]
    intro hc
    exact h1 (List.map_eq_nil_iff.mp hc)
  have hcells : ∀ row ∈ cellValues rep, row ≠ [] := by
    intro row hrow
    obtain ⟨r, hr, rfl⟩ := List.mem_map.mp hrow
    intro hc
    exact h2 r hr (List.map_eq_nil_iff.mp hc)
  have hvals : ∀ row ∈ cellValues rep, ∀ v ∈ row,
      ¬ '\t' ∈ v.data ∧ ¬ '\n' ∈ v.data := by
    intro row hrow v hv
    obtain ⟨r, hr, rfl⟩ := List.mem_map.mp hrow
    obtain ⟨p, hp, rfl⟩ := List.mem_map.mp hv
    exact h3 r hr p hp
  have key : ∀ (rows : List (List String)), rows ≠ [] →
      (∀ row ∈ rows, row ≠ []) →
      (∀ row ∈ rows, ∀ v ∈ row, ¬ '\t' ∈ v.data ∧ ¬ '\n' ∈ v.data) →
      ((splitChar '\n'
          (joinChar '\n' (rows.map (fun row => joinChar '\t' (row.map String.data))))).map
        (fun l => (splitChar '\t' l).map String.mk)) = rows := by
    intro rows hne hrne hv
    rw [splitChar_joinChar]
    · rw [List.map_map]
      have hrow : ∀ row ∈ rows,
          ((fun l => (splitChar '\t' l).map String.mk) ∘
            (fun row => joinChar '\t' (row.map String.data))) row = id row := by
        intro row hrow
        show (splitChar '\t' (joinChar '\t' (row.map String.data))).map String.mk = row
        rw [splitChar_joinChar]
        · rw [List.map_map]
          calc row.map (String.mk ∘ String.data)
              = row.map id := List.map_congr_left (fun s _ => rfl)
            _ = row := List.map_id row
        · intro hc
          exact hrne row hrow (List.map_eq_nil_iff.mp hc)
        · intro x hx
          obtain ⟨v, hv', rfl⟩ := List.mem_map.mp hx
          exact (hv row hrow v hv').1
      rw [List.map_congr_left hrow, List.map_id]
    · intro hc
      exact hne (List.map_eq_nil_iff.mp hc)
    · intro l hl
      obtain ⟨row, hrow, rfl⟩ := List.mem_map.mp hl
      intro hmem
      rcases mem_joinChar _ hmem with hcc | ⟨x, hx, hmx⟩
      · exact absurd hcc (by decide)
      · obtain ⟨v, hv', rfl⟩ := List.mem_map.mp hx
        exact (hv row hrow v hv').2 hmx
  exact key (cellValues rep) hrows hcells hvals

/-- A tab- and newline-free two-column report for the round-trip
witness. -/
def rtReport : Report :=
  { columns := ["A", "B"],
    rows := [{ record := tabRecord, cells := [("A", "x"), ("B", "")] },
             { record := tabRecord, cells := [("A", "chr1"), ("B", "100")] }] }

/-- Witness for C9 (amended): the sample report satisfies the
hypotheses and round-trips to its own cell values. -/
theorem C9_serialization_roundtrip_witness :
    rtReport.rows ≠ [] ∧
    (∀ row ∈ rtReport.rows, row.cells ≠ []) ∧
    (∀ row ∈ rtReport.rows, ∀ p ∈ row.cells,
       ¬ '\t' ∈ p.2.data ∧ ¬ '\n' ∈ p.2.data) ∧
    readCells (serializeReport rtReport) = cellValues rtReport :=
  ⟨by decide, by decide, by decide,
   C9_serialization_roundtrip rtReport (by decide) (by decide) (by decide)⟩

end VcfParse
